import Mathlib

/-! Verification of the input-acquisition, multi-document aggregation and
output-dispatch pipeline of the aq command-line tool (src/main.rs),
shallowly embedded. The external ason library and the process
environment are modelled as opaque parameters; the pipeline logic of
fn main is translated line by line into runMain below. -/

namespace AsonQuery

/-- The document value produced by the external ason parser
(ason::ast::AsonNode). The pipeline only ever constructs the
ordered-composite (Tuple) variant; every other shape is opaque to it
and is modelled by a single leaf constructor. -/
inductive AsonNode where
  | leaf (tag : Nat)
  | Tuple (elems : List AsonNode)

/-- The typed configuration produced by clap from the process arguments
(struct AqArgs in src/main.rs). -/
structure AqArgs where
  output : Option String
  query : Option String
  query_expression : Option String
  input_files : List String
deriving DecidableEq

/-- The external format library (the collaborator): parse_from_str,
rendering a parse error against its source text (Error::with_source),
and rendering a node to a string (print_to_string). print_to_writer is
assumed to emit the same text as print_to_string, both being the same
printer. -/
structure Collab where
  parse_from_str : String → Except String AsonNode
  with_source : String → String → String
  print_to_string : AsonNode → String

/-- The ambient process environment: the result of reading each file to
a string, whether standard input is attached to an interactive
terminal, the result of reading standard input to end of stream, and
the results of the possible write attempts. -/
structure World where
  fs : String → Except String String
  stdinTerminal : Bool
  stdinRead : Except String String
  writeFile : String → Except String Unit
  writeStdout : Except String Unit

/-- Observable outcome of one invocation: the exit code, the chunks
emitted on standard output and on the error stream (one entry per
println or write), the completed file writes, the input files read (in
order), and whether a read of standard input was attempted. -/
structure Outcome where
  exitCode : Nat
  stdout : List String
  stderr : List String
  writtenFiles : List (String × String)
  readFiles : List String
  stdinReadAttempted : Bool
deriving DecidableEq

def usageLine : String := "Usage: aq [OPTIONS] [QUERY_EXPRESSION]"

def helpLine : String := "For more information, try \x27--help\x27."

def readFailLine (f : String) : String :=
  "Fail to read the specified input file: \"" ++ f ++ "\"."

def stdinFailLine : String := "Fail to read the input text from STDIN."

def writeFailLine (f : String) : String :=
  "Fail to write to the output file: \"" ++ f ++ "\"."

def stdoutFailLine : String := "Fail to write to the STDOUT."

/-- Rust Debug formatting of one String (escaping elided: the model is
used on texts without special characters). -/
def rustDebugStr (s : String) : String := "\"" ++ s ++ "\""

/-- Rust Debug formatting of a Vec of String, as emitted by the
debugging println at src/main.rs line 134. -/
def rustDebugList (xs : List String) : String :=
  "[" ++ String.intercalate ", " (xs.map rustDebugStr) ++ "]"

/-- The file-reading loop (src/main.rs lines 136-148): read each named
input file to a string, in order, stopping at the first failure.
Returns the accumulated texts or (path, error) of the first failure,
paired with the trace of files actually read (attempted), in order. -/
def readInputFiles (fs : String → Except String String) :
    List String → Except (String × String) (List String) × List String
  | [] => (Except.ok [], [])
  | f :: rest =>
    match fs f with
    | Except.error e => (Except.error (f, e), [f])
    | Except.ok s =>
      match readInputFiles fs rest with
      | (Except.ok ts, tr) => (Except.ok (s :: ts), f :: tr)
      | (Except.error pe, tr) => (Except.error pe, f :: tr)

/-- The parsing loop (src/main.rs lines 174-184): parse each text in
order, stopping at the first failure, whose error is rendered against
the offending source text. -/
def parseTexts (p : String → Except String AsonNode)
    (ws : String → String → String) :
    List String → Except String (List AsonNode)
  | [] => Except.ok []
  | t :: rest =>
    match p t with
    | Except.error e => Except.error (ws e t)
    | Except.ok n =>
      match parseTexts p ws rest with
      | Except.ok ns => Except.ok (n :: ns)
      | Except.error m => Except.error m

/-- The document aggregation step (src/main.rs lines 186-190): a single
parsed node is taken unchanged (nodes.remove(0)), otherwise the list is
wrapped in the Tuple variant. -/
def aggregate : List AsonNode → AsonNode
  | [n] => n
  | ns => AsonNode.Tuple ns

/-- Intermediate state after the input-acquisition phase: the gathered
texts, the standard-output chunks emitted so far, the files read and
whether standard input was read. -/
structure Gathered where
  texts : List String
  out0 : List String
  readFiles : List String
  stdinReadAttempted : Bool
deriving DecidableEq

/-- The input-acquisition phase (src/main.rs lines 129-170): if
input_files is non-empty, print the debug line and read every file
(fail-fast); otherwise apply the interactive-terminal usage guard and
then read standard input. An error value is the final outcome of a
failed run. -/
def gatherTexts (w : World) (args : AqArgs) : Except Outcome Gathered :=
  if args.input_files.isEmpty then
    if w.stdinTerminal && args.query_expression.isNone then
      Except.error ⟨1, [], [usageLine, "", helpLine], [], [], false⟩
    else
      match w.stdinRead with
      | Except.error e => Except.error ⟨1, [], [stdinFailLine, e], [], [], true⟩
      | Except.ok buf => Except.ok ⟨[buf], [], [], true⟩
  else
    let dbg := rustDebugList args.input_files ++ "\n"
    match readInputFiles w.fs args.input_files with
    | (Except.error pe, tr) =>
      Except.error ⟨1, [dbg], [readFailLine pe.1, pe.2], [], tr, false⟩
    | (Except.ok ts, tr) => Except.ok ⟨ts, [dbg], tr, false⟩

/-- The whole pipeline of fn main (src/main.rs lines 121-216): gather
texts, parse them all, aggregate, then dispatch the rendered root
either to the named output file or to standard output. -/
def runMain (c : Collab) (w : World) (args : AqArgs) : Outcome :=
  match gatherTexts w args with
  | Except.error o => o
  | Except.ok g =>
    match parseTexts c.parse_from_str c.with_source g.texts with
    | Except.error msg =>
      ⟨1, g.out0, [msg], [], g.readFiles, g.stdinReadAttempted⟩
    | Except.ok nodes =>
      let root := aggregate nodes
      match args.output with
      | some f =>
        match w.writeFile f with
        | Except.error e =>
          ⟨1, g.out0, [writeFailLine f, e], [], g.readFiles, g.stdinReadAttempted⟩
        | Except.ok _ =>
          ⟨0, g.out0, [], [(f, c.print_to_string root)], g.readFiles,
            g.stdinReadAttempted⟩
      | none =>
        match w.writeStdout with
        | Except.error e =>
          ⟨1, g.out0, [stdoutFailLine, e], [], g.readFiles, g.stdinReadAttempted⟩
        | Except.ok _ =>
          ⟨0, g.out0 ++ [c.print_to_string root], [], [], g.readFiles,
            g.stdinReadAttempted⟩

/-- The condition of the interactive-terminal usage guard
(src/main.rs line 152, reachable only when input_files is empty). -/
def usageGuardFires (w : World) (args : AqArgs) : Bool :=
  args.input_files.isEmpty && (w.stdinTerminal && args.query_expression.isNone)

/-! Concrete collaborators and environments used to evaluate the
pipeline on specific inputs. -/

/-- A concrete collaborator: the texts "11" and "13" parse, everything
else is a parse error. -/
def demoCollab : Collab where
  parse_from_str := fun t =>
    if t = "11" then Except.ok (AsonNode.leaf 11)
    else if t = "13" then Except.ok (AsonNode.leaf 13)
    else Except.error "unexpected token"
  with_source := fun e t => e ++ " in " ++ t
  print_to_string := fun _ => "RENDERED"

/-- A second concrete collaborator, differing from demoCollab in every
operation. -/
def demoCollab2 : Collab where
  parse_from_str := fun _ => Except.error "other error"
  with_source := fun e _ => e
  print_to_string := fun _ => "OTHER"

/-- An environment where a.ason holds "11" and every other file holds
the unparsable text "][". -/
def filesWorld : World where
  fs := fun f => if f = "a.ason" then Except.ok "11" else Except.ok "]["
  stdinTerminal := false
  stdinRead := Except.ok ""
  writeFile := fun _ => Except.ok ()
  writeStdout := Except.ok ()

/-- An environment where bad.ason holds the unparsable text "][" and
every other file is unreadable. -/
def missingWorld : World where
  fs := fun f =>
    if f = "bad.ason" then Except.ok "]["
    else if f = "a.ason" then Except.ok "11"
    else Except.error "No such file or directory (os error 2)"
  stdinTerminal := false
  stdinRead := Except.ok ""
  writeFile := fun _ => Except.ok ()
  writeStdout := Except.ok ()

/-- An environment where standard input is an interactive terminal. -/
def terminalWorld : World where
  fs := fun _ => Except.ok "11"
  stdinTerminal := true
  stdinRead := Except.ok "11"
  writeFile := fun _ => Except.ok ()
  writeStdout := Except.ok ()

/-- An environment where standard input is redirected and supplies the
unparsable text "][". -/
def stdinBadWorld : World where
  fs := fun _ => Except.ok "11"
  stdinTerminal := false
  stdinRead := Except.ok "]["
  writeFile := fun _ => Except.ok ()
  writeStdout := Except.ok ()

/-- An environment where standard input is redirected and supplies the
text "11". -/
def stdinGoodWorld : World where
  fs := fun _ => Except.ok "11"
  stdinTerminal := false
  stdinRead := Except.ok "11"
  writeFile := fun _ => Except.ok ()
  writeStdout := Except.ok ()

def c1Args : AqArgs := ⟨none, none, some ".", ["a.ason", "b.ason"]⟩

def c5Args : AqArgs := ⟨none, none, some ".", ["bad.ason", "missing.ason"]⟩

def c6Args : AqArgs := ⟨none, none, some ".", ["a.ason", "nope.ason", "later.ason"]⟩

def c7Args : AqArgs := ⟨some "out.ason", none, some ".", ["a.ason"]⟩

def parseFailStdinArgs : AqArgs := ⟨none, none, some ".", []⟩

def bareArgs : AqArgs := ⟨none, none, none, []⟩

def oneFileArgs : AqArgs := ⟨none, none, none, ["a.ason"]⟩

/-- The stderr shapes of the failure paths: the three-line usage
message, the two-line read diagnostics, the one-line parse diagnostic,
and the two-line write diagnostics. -/
def errStderrShape (o : Outcome) : Prop :=
  o.stderr = [usageLine, "", helpLine] ∨
  (∃ p m, o.stderr = [readFailLine p, m]) ∨
  (∃ m, o.stderr = [stdinFailLine, m]) ∨
  (∃ m, o.stderr = [m]) ∨
  (∃ p m, o.stderr = [writeFailLine p, m]) ∨
  (∃ m, o.stderr = [stdoutFailLine, m])

/-! Helper lemmas about the reading and parsing loops. -/

theorem readInputFiles_all_ok (fs : String → Except String String) :
    ∀ l : List String, (∀ f ∈ l, ∃ s, fs f = Except.ok s) →
    ∃ ts, readInputFiles fs l = (Except.ok ts, l) ∧ ts.length = l.length := by
  intro l
  induction l with
  | nil => exact fun _ => ⟨[], rfl, rfl⟩
  | cons f rest ih =>
    intro h
    obtain ⟨s, hs⟩ := h f (List.mem_cons_self f rest)
    obtain ⟨ts, hts, hlen⟩ := ih fun g hg => h g (List.mem_cons_of_mem f hg)
    exact ⟨s :: ts, by simp [readInputFiles, hs, hts], by simp [hlen]⟩

theorem readInputFiles_ok_inv (fs : String → Except String String) :
    ∀ l ts tr, readInputFiles fs l = (Except.ok ts, tr) →
    tr = l ∧ ts.length = l.length := by
  intro l
  induction l with
  | nil =>
    intro ts tr h
    simp only [readInputFiles, Prod.mk.injEq, Except.ok.injEq] at h
    exact ⟨h.2.symm, by rw [← h.1]⟩
  | cons f rest ih =>
    intro ts tr h
    simp only [readInputFiles] at h
    cases hf : fs f with
    | error e => rw [hf] at h; simp at h
    | ok s =>
      rw [hf] at h
      cases hr : readInputFiles fs rest with
      | mk r tr2 =>
        rw [hr] at h
        cases r with
        | error pe => simp at h
        | ok ts2 =>
          simp only [Prod.mk.injEq, Except.ok.injEq] at h
          obtain ⟨h1, h2⟩ := h
          obtain ⟨htr, hlen⟩ := ih ts2 tr2 hr
          subst h1
          subst h2
          simp [htr, hlen]

theorem readInputFiles_first_err (fs : String → Except String String)
    (f e : String) (post : List String) (hf : fs f = Except.error e) :
    ∀ pre : List String, (∀ g ∈ pre, ∃ s, fs g = Except.ok s) →
    readInputFiles fs (pre ++ f :: post) = (Except.error (f, e), pre ++ [f]) := by
  intro pre
  induction pre with
  | nil => intro _; simp [readInputFiles, hf]
  | cons g rest ih =>
    intro h
    obtain ⟨s, hs⟩ := h g (List.mem_cons_self g rest)
    have hrec := ih fun x hx => h x (List.mem_cons_of_mem g hx)
    simp [readInputFiles, hs, hrec]

theorem readInputFiles_err_of_mem (fs : String → Except String String) :
    ∀ l : List String, (∃ f ∈ l, ∃ e, fs f = Except.error e) →
    ∃ pe tr, readInputFiles fs l = (Except.error pe, tr) := by
  intro l
  induction l with
  | nil => rintro ⟨f, hf, _⟩; exact absurd hf (List.not_mem_nil f)
  | cons g rest ih =>
    rintro ⟨f, hf, e, he⟩
    cases hg : fs g with
    | error e2 => exact ⟨(g, e2), [g], by simp [readInputFiles, hg]⟩
    | ok s =>
      have hfr : f ∈ rest := by
        rcases List.mem_cons.mp hf with h1 | h1
        · subst h1; rw [hg] at he; exact absurd he (by simp)
        · exact h1
      obtain ⟨pe, tr, hrec⟩ := ih ⟨f, hfr, e, he⟩
      exact ⟨pe, g :: tr, by simp [readInputFiles, hg, hrec]⟩

theorem readInputFiles_trace_take (fs : String → Except String String) :
    ∀ l : List String,
    (readInputFiles fs l).2 = l.take (readInputFiles fs l).2.length := by
  intro l
  induction l with
  | nil => rfl
  | cons f rest ih =>
    cases hf : fs f with
    | error e => simp [readInputFiles, hf]
    | ok s =>
      cases hr : readInputFiles fs rest with
      | mk r tr =>
        rw [hr] at ih
        cases r with
        | error pe =>
          simp only [readInputFiles, hf, hr, List.length_cons, List.take_succ_cons]
          exact congrArg (List.cons f) ih
        | ok ts =>
          simp only [readInputFiles, hf, hr, List.length_cons, List.take_succ_cons]
          exact congrArg (List.cons f) ih

theorem parseTexts_ok (p : String → Except String AsonNode)
    (ws : String → String → String) :
    ∀ ts ns, parseTexts p ws ts = Except.ok ns →
    ns.length = ts.length ∧ ∀ t ∈ ts, ∃ n, p t = Except.ok n := by
  intro ts
  induction ts with
  | nil =>
    intro ns h
    simp only [parseTexts, Except.ok.injEq] at h
    subst h
    exact ⟨rfl, by simp⟩
  | cons t rest ih =>
    intro ns h
    simp only [parseTexts] at h
    cases hp : p t with
    | error e => rw [hp] at h; simp at h
    | ok n =>
      rw [hp] at h
      cases hr : parseTexts p ws rest with
      | error m => rw [hr] at h; simp at h
      | ok ns0 =>
        rw [hr] at h
        simp only [Except.ok.injEq] at h
        subst h
        obtain ⟨hl, hall⟩ := ih ns0 hr
        refine ⟨by simp [hl], ?_⟩
        intro x hx
        rcases List.mem_cons.mp hx with h1 | h1
        · subst h1; exact ⟨n, hp⟩
        · exact hall x h1

theorem parseTexts_first_err (p : String → Except String AsonNode)
    (ws : String → String → String) (t e : String) (post : List String)
    (ht : p t = Except.error e) :
    ∀ pre : List String, (∀ s ∈ pre, ∃ n, p s = Except.ok n) →
    parseTexts p ws (pre ++ t :: post) = Except.error (ws e t) := by
  intro pre
  induction pre with
  | nil => intro _; simp [parseTexts, ht]
  | cons s rest ih =>
    intro h
    obtain ⟨n, hn⟩ := h s (List.mem_cons_self s rest)
    have hrec := ih fun x hx => h x (List.mem_cons_of_mem s hx)
    simp [parseTexts, hn, hrec]

theorem runMain_of_gather_error (c : Collab) (w : World) (args : AqArgs)
    (o : Outcome) (hg : gatherTexts w args = Except.error o) :
    runMain c w args = o := by
  unfold runMain
  rw [hg]

theorem runMain_fields_of_ok (c : Collab) (w : World) (args : AqArgs)
    (g : Gathered) (hg : gatherTexts w args = Except.ok g) :
    (runMain c w args).readFiles = g.readFiles ∧
    (runMain c w args).stdinReadAttempted = g.stdinReadAttempted := by
  unfold runMain
  rw [hg]
  dsimp only
  constructor <;> (repeat' split) <;> rfl

/-! The claims. -/

/-- C2: the aggregation step is a pure function on the sequence of
parsed document values: a sequence of length exactly 1 is returned
unchanged (no wrapping), and a sequence of length N greater than 1 is
wrapped in the ordered-composite Tuple variant, keeping exactly the N
inputs in their original order. -/
theorem aggregate_pure_spec (ns : List AsonNode) :
    (∀ n, ns = [n] → aggregate ns = n) ∧
    (1 < ns.length → aggregate ns = AsonNode.Tuple ns) := by
  constructor
  · rintro n rfl; rfl
  · intro h
    rcases ns with _ | ⟨a, _ | ⟨b, t⟩⟩
    · simp at h
    · simp at h
    · rfl

theorem aggregate_pure_spec_witness :
    aggregate [AsonNode.leaf 0] = AsonNode.leaf 0 ∧
    aggregate [AsonNode.leaf 0, AsonNode.leaf 1] =
      AsonNode.Tuple [AsonNode.leaf 0, AsonNode.leaf 1] :=
  ⟨(aggregate_pure_spec [AsonNode.leaf 0]).1 (AsonNode.leaf 0) rfl,
   (aggregate_pure_spec [AsonNode.leaf 0, AsonNode.leaf 1]).2 (by decide)⟩

/-- C1, evaluated at a failing input: with the two file sources a.ason
(text "11") and b.ason (unparsable text "]["), the run exits with
status 1 and writes no file, but standard output is NOT empty: the
debugging println of src/main.rs line 134 has already emitted the
Debug rendering of the input-file list, contradicting the claim that
standard output receives nothing. -/
theorem parse_failure_stdout_not_silent :
    (runMain demoCollab filesWorld c1Args).exitCode = 1 ∧
    (runMain demoCollab filesWorld c1Args).writtenFiles = [] ∧
    (runMain demoCollab filesWorld c1Args).stdout =
      ["[\"a.ason\", \"b.ason\"]\n"] :=
  ⟨rfl, rfl, rfl⟩

/-- C7, evaluated at a failing input: with the file source a.ason and
the output file out.ason configured, the run succeeds and writes the
rendered root to out.ason, but standard output is NOT empty: the
debugging println of src/main.rs line 134 has emitted the Debug
rendering of the input-file list, so two destinations receive bytes,
contradicting the claim that standard output receives nothing when the
output path is set. -/
theorem output_file_stdout_not_silent :
    (runMain demoCollab filesWorld c7Args).exitCode = 0 ∧
    (runMain demoCollab filesWorld c7Args).writtenFiles =
      [("out.ason", "RENDERED")] ∧
    (runMain demoCollab filesWorld c7Args).stdout = ["[\"a.ason\"]\n"] :=
  ⟨rfl, rfl, rfl⟩

/-- C5, counterexample: with the sources bad.ason (text "][", which
fails to parse) and missing.ason (unreadable), the reported failure is
the read error for missing.ason, not the parse error of the first
source: the loader reads every source before it parses any of them, so
the claimed read-one-parse-one interleaving does not hold. -/
theorem loader_interleaving_cex :
    demoCollab.parse_from_str "][" = Except.error "unexpected token" ∧
    (runMain demoCollab missingWorld c5Args).stderr =
      [readFailLine "missing.ason", "No such file or directory (os error 2)"] ∧
    (runMain demoCollab missingWorld c5Args).stderr ≠
      [demoCollab.with_source "unexpected token" "]["] :=
  ⟨rfl, rfl, by decide⟩

/-- C8, counterexample: the parse-failure path writes a single line to
the error stream (the collaborator error rendered against the source),
not a two-line diagnostic, and the usage-error path writes three lines
(usage, blank, help hint); both runs exit with status 1. -/
theorem error_two_line_cex :
    (runMain demoCollab stdinBadWorld parseFailStdinArgs).exitCode = 1 ∧
    (runMain demoCollab stdinBadWorld parseFailStdinArgs).stderr.length = 1 ∧
    (runMain demoCollab terminalWorld bareArgs).exitCode = 1 ∧
    (runMain demoCollab terminalWorld bareArgs).stderr.length = 3 :=
  ⟨rfl, rfl, rfl, rfl⟩

/-- C3: input-source selection has a fixed two-branch precedence. When
input_files is non-empty, standard input is never read and the files
read are exactly the given paths in the given order (a prefix of them
in general, all of them when every read succeeds). When input_files is
empty, no file is read and, unless the interactive-terminal usage
guard fires, the single source read is standard input. -/
theorem input_source_selection (c : Collab) (w : World) (args : AqArgs) :
    (args.input_files ≠ [] →
      (runMain c w args).stdinReadAttempted = false ∧
      (runMain c w args).readFiles =
        args.input_files.take (runMain c w args).readFiles.length ∧
      ((∀ f ∈ args.input_files, ∃ s, w.fs f = Except.ok s) →
        (runMain c w args).readFiles = args.input_files)) ∧
    (args.input_files = [] →
      (runMain c w args).readFiles = [] ∧
      (usageGuardFires w args = false →
        (runMain c w args).stdinReadAttempted = true)) := by
  obtain ⟨out, q, qe, files⟩ := args
  cases files with
  | nil =>
    refine ⟨fun h => absurd rfl h, fun _ => ?_⟩
    by_cases hb : (w.stdinTerminal && qe.isNone) = true
    · have hg : gatherTexts w ⟨out, q, qe, []⟩ =
          Except.error ⟨1, [], [usageLine, "", helpLine], [], [], false⟩ := by
        simp [gatherTexts, hb]
      rw [runMain_of_gather_error _ _ _ _ hg]
      refine ⟨rfl, fun hfalse => ?_⟩
      exfalso
      simp [usageGuardFires, hb] at hfalse
    · rw [Bool.not_eq_true] at hb
      cases hr : w.stdinRead with
      | error e =>
        have hg : gatherTexts w ⟨out, q, qe, []⟩ =
            Except.error ⟨1, [], [stdinFailLine, e], [], [], true⟩ := by
          simp [gatherTexts, hb, hr]
        rw [runMain_of_gather_error _ _ _ _ hg]
        exact ⟨rfl, fun _ => rfl⟩
      | ok buf =>
        have hg : gatherTexts w ⟨out, q, qe, []⟩ =
            Except.ok ⟨[buf], [], [], true⟩ := by
          simp [gatherTexts, hb, hr]
        have hfld := runMain_fields_of_ok c w _ _ hg
        exact ⟨hfld.1, fun _ => hfld.2⟩
  | cons f rest =>
    refine ⟨fun _ => ?_, fun h => by cases h⟩
    cases hrd : readInputFiles w.fs (f :: rest) with
    | mk r tr =>
      have htake := readInputFiles_trace_take w.fs (f :: rest)
      rw [hrd] at htake
      cases r with
      | error pe =>
        have hg : gatherTexts w ⟨out, q, qe, f :: rest⟩ =
            Except.error ⟨1, [rustDebugList (f :: rest) ++ "\n"],
              [readFailLine pe.1, pe.2], [], tr, false⟩ := by
          simp [gatherTexts, hrd]
        rw [runMain_of_gather_error _ _ _ _ hg]
        refine ⟨rfl, htake, fun hall => ?_⟩
        obtain ⟨ts, hts, _⟩ := readInputFiles_all_ok w.fs (f :: rest) hall
        rw [hrd] at hts
        simp at hts
      | ok ts =>
        have hg : gatherTexts w ⟨out, q, qe, f :: rest⟩ =
            Except.ok ⟨ts, [rustDebugList (f :: rest) ++ "\n"], tr, false⟩ := by
          simp [gatherTexts, hrd]
        have hfld := runMain_fields_of_ok c w _ _ hg
        have hinv := readInputFiles_ok_inv w.fs (f :: rest) ts tr hrd
        refine ⟨hfld.2, ?_, fun _ => ?_⟩
        · rw [hfld.1]; exact htake
        · rw [hfld.1]; exact hinv.1

theorem input_source_selection_witness :
    (runMain demoCollab filesWorld oneFileArgs).stdinReadAttempted = false ∧
    (runMain demoCollab filesWorld oneFileArgs).readFiles =
      oneFileArgs.input_files :=
  ⟨((input_source_selection demoCollab filesWorld oneFileArgs).1
      (by decide)).1,
   ((input_source_selection demoCollab filesWorld oneFileArgs).1
      (by decide)).2.2
     (by
       intro f hf
       rw [show oneFileArgs.input_files = ["a.ason"] from rfl,
         List.mem_singleton] at hf
       subst hf
       exact ⟨"11", rfl⟩)⟩

/-- C4: with no input files, the usage-error guard fires exactly when
standard input is an interactive terminal and no query expression was
given; in that case the process emits the usage message and the help
hint on the error stream and exits with status 1 without reading
anything. In every other case (in particular when standard input is a
terminal but a query expression is present) the selector proceeds to
read standard input. -/
theorem usage_guard_iff (c : Collab) (w : World) (args : AqArgs)
    (h : args.input_files = []) :
    ((runMain c w args).stdinReadAttempted = false ↔
      (w.stdinTerminal = true ∧ args.query_expression = none)) ∧
    ((w.stdinTerminal = true ∧ args.query_expression = none) →
      runMain c w args =
        ⟨1, [], [usageLine, "", helpLine], [], [], false⟩) := by
  obtain ⟨out, q, qe, files⟩ := args
  replace h : files = [] := h
  subst h
  by_cases hb : (w.stdinTerminal && qe.isNone) = true
  · have hg : gatherTexts w ⟨out, q, qe, []⟩ =
        Except.error ⟨1, [], [usageLine, "", helpLine], [], [], false⟩ := by
      simp [gatherTexts, hb]
    rw [runMain_of_gather_error _ _ _ _ hg]
    rw [Bool.and_eq_true, Option.isNone_iff_eq_none] at hb
    exact ⟨by simp [hb.1, hb.2], fun _ => rfl⟩
  · rw [Bool.not_eq_true] at hb
    have hsr : (runMain c w ⟨out, q, qe, []⟩).stdinReadAttempted = true := by
      cases hr : w.stdinRead with
      | error e =>
        have hg : gatherTexts w ⟨out, q, qe, []⟩ =
            Except.error ⟨1, [], [stdinFailLine, e], [], [], true⟩ := by
          simp [gatherTexts, hb, hr]
        rw [runMain_of_gather_error _ _ _ _ hg]
      | ok buf =>
        have hg : gatherTexts w ⟨out, q, qe, []⟩ =
            Except.ok ⟨[buf], [], [], true⟩ := by
          simp [gatherTexts, hb, hr]
        exact (runMain_fields_of_ok c w _ _ hg).2
    constructor
    · rw [hsr]
      refine ⟨fun hc => absurd hc (by simp), ?_⟩
      rintro ⟨ht, hqe⟩
      replace hqe : qe = none := hqe
      rw [ht, hqe] at hb
      simp at hb
    · rintro ⟨ht, hqe⟩
      replace hqe : qe = none := hqe
      rw [ht, hqe] at hb
      simp at hb

theorem usage_guard_iff_witness :
    runMain demoCollab terminalWorld bareArgs =
      ⟨1, [], [usageLine, "", helpLine], [], [], false⟩ :=
  (usage_guard_iff demoCollab terminalWorld bareArgs rfl).2 ⟨rfl, rfl⟩

/-- C6: when reading one of the named input files fails, the process
emits the two-line diagnostic naming that path and the underlying
error, exits with status 1, writes nothing, and the files read are
exactly the ones before the failing file plus the failing file itself:
no later file in the list is opened. -/
theorem read_failure_fail_fast (c : Collab) (w : World) (args : AqArgs)
    (pre : List String) (f : String) (post : List String) (e : String)
    (hfiles : args.input_files = pre ++ f :: post)
    (hpre : ∀ g ∈ pre, ∃ s, w.fs g = Except.ok s)
    (hf : w.fs f = Except.error e) :
    runMain c w args =
      ⟨1, [rustDebugList args.input_files ++ "\n"], [readFailLine f, e], [],
        pre ++ [f], false⟩ := by
  obtain ⟨out, q, qe, files⟩ := args
  replace hfiles : files = pre ++ f :: post := hfiles
  subst hfiles
  have hrd := readInputFiles_first_err w.fs f e post hf pre hpre
  have hne : (pre ++ f :: post).isEmpty = false := by
    cases pre with
    | nil => rfl
    | cons a l => rfl
  have hg : gatherTexts w ⟨out, q, qe, pre ++ f :: post⟩ =
      Except.error ⟨1, [rustDebugList (pre ++ f :: post) ++ "\n"],
        [readFailLine f, e], [], pre ++ [f], false⟩ := by
    simp [gatherTexts, hne, hrd]
  exact runMain_of_gather_error _ _ _ _ hg

theorem read_failure_fail_fast_witness :
    runMain demoCollab missingWorld c6Args =
      ⟨1, [rustDebugList c6Args.input_files ++ "\n"],
        [readFailLine "nope.ason", "No such file or directory (os error 2)"],
        [], ["a.ason"] ++ ["nope.ason"], false⟩ :=
  read_failure_fail_fast demoCollab missingWorld c6Args ["a.ason"] "nope.ason"
    ["later.ason"] "No such file or directory (os error 2)" rfl
    (by
      intro g hg
      rw [List.mem_singleton] at hg
      subst hg
      exact ⟨"11", rfl⟩)
    rfl

/-- C5, amended: the loader runs in two phases. It first reads the
full text of every source, in source order, before any parse is
attempted — so when some file read fails, the outcome does not depend
on the parse collaborator at all. Only after all texts are gathered
are they parsed, in source order, with the first parse failure
reported rendered against its own source text. -/
theorem loader_two_phase (c c2 : Collab) (w : World) (args : AqArgs) :
    (args.input_files ≠ [] →
      (∃ f ∈ args.input_files, ∃ e, w.fs f = Except.error e) →
      runMain c w args = runMain c2 w args) ∧
    (∀ pre t post e, (∀ s ∈ pre, ∃ n, c.parse_from_str s = Except.ok n) →
      c.parse_from_str t = Except.error e →
      parseTexts c.parse_from_str c.with_source (pre ++ t :: post) =
        Except.error (c.with_source e t)) := by
  constructor
  · intro hne hex
    have hie : args.input_files.isEmpty = false := by
      cases hfe : args.input_files with
      | nil => exact absurd hfe hne
      | cons a l => rfl
    obtain ⟨pe, tr, hrd⟩ := readInputFiles_err_of_mem w.fs args.input_files hex
    have hg : gatherTexts w args =
        Except.error ⟨1, [rustDebugList args.input_files ++ "\n"],
          [readFailLine pe.1, pe.2], [], tr, false⟩ := by
      simp [gatherTexts, hie, hrd]
    rw [runMain_of_gather_error c w args _ hg,
      runMain_of_gather_error c2 w args _ hg]
  · exact fun pre t post e h ht =>
      parseTexts_first_err c.parse_from_str c.with_source t e post ht pre h

theorem loader_two_phase_witness :
    runMain demoCollab missingWorld c5Args =
      runMain demoCollab2 missingWorld c5Args ∧
    parseTexts demoCollab.parse_from_str demoCollab.with_source
      (["11"] ++ "][" :: []) =
      Except.error (demoCollab.with_source "unexpected token" "][") :=
  ⟨(loader_two_phase demoCollab demoCollab2 missingWorld c5Args).1
    (by decide)
    ⟨"missing.ason", by decide, "No such file or directory (os error 2)", rfl⟩,
   (loader_two_phase demoCollab demoCollab2 missingWorld c5Args).2
    ["11"] "][" [] "unexpected token"
    (by
      intro s hs
      rw [List.mem_singleton] at hs
      subst hs
      exact ⟨AsonNode.leaf 11, rfl⟩)
    rfl⟩

theorem gatherTexts_ok_texts_ne (w : World) (args : AqArgs) (g : Gathered)
    (hg : gatherTexts w args = Except.ok g) : g.texts ≠ [] := by
  unfold gatherTexts at hg
  by_cases hie : args.input_files.isEmpty
  · rw [if_pos hie] at hg
    by_cases hb : (w.stdinTerminal && args.query_expression.isNone) = true
    · rw [if_pos hb] at hg
      simp at hg
    · rw [if_neg hb] at hg
      cases hr : w.stdinRead with
      | error e => rw [hr] at hg; simp at hg
      | ok buf =>
        rw [hr] at hg
        simp only [Except.ok.injEq] at hg
        rw [← hg]
        simp
  · rw [if_neg hie] at hg
    cases hrd : readInputFiles w.fs args.input_files with
    | mk r tr =>
      rw [hrd] at hg
      cases r with
      | error pe => simp at hg
      | ok ts =>
        simp only [Except.ok.injEq] at hg
        obtain ⟨htr, hlen⟩ := readInputFiles_ok_inv w.fs args.input_files ts tr hrd
        rw [← hg]
        simp only [ne_eq]
        intro hts
        rw [hts] at hlen
        simp only [List.length_nil] at hlen
        have hne : args.input_files ≠ [] := by
          intro hnil
          exact hie (by rw [hnil]; rfl)
        have hpos : 0 < args.input_files.length := List.length_pos.mpr hne
        omega

/-- C9: whenever an execution reaches the aggregation step, the number
of parsed document values equals the number of raw-text sources
gathered, that number is at least one, and every gathered source text
parsed successfully: the pipeline never aggregates a partial list of
documents. -/
theorem aggregation_invariant (c : Collab) (w : World) (args : AqArgs)
    (g : Gathered) (nodes : List AsonNode)
    (hg : gatherTexts w args = Except.ok g)
    (hp : parseTexts c.parse_from_str c.with_source g.texts =
      Except.ok nodes) :
    nodes.length = g.texts.length ∧ 1 ≤ nodes.length ∧
    ∀ t ∈ g.texts, ∃ n, c.parse_from_str t = Except.ok n := by
  obtain ⟨hlen, hall⟩ :=
    parseTexts_ok c.parse_from_str c.with_source g.texts nodes hp
  have hne := gatherTexts_ok_texts_ne w args g hg
  refine ⟨hlen, ?_, hall⟩
  rw [hlen]
  exact List.length_pos.mpr hne

theorem aggregation_invariant_witness :
    (1 : Nat) = List.length ["11"] ∧ 1 ≤ (1 : Nat) ∧
    ∀ t ∈ ["11"], ∃ n, demoCollab.parse_from_str t = Except.ok n := by
  have h := aggregation_invariant demoCollab stdinGoodWorld parseFailStdinArgs
    ⟨["11"], [], [], true⟩ [AsonNode.leaf 11] rfl rfl
  exact h

/-- C10: the query-file path and the query-expression string never
influence parsing, aggregation or rendering: two invocations that
differ only in those two fields, run in the same environment, produce
identical outcomes, provided the interactive-terminal usage guard
fires in neither invocation. -/
theorem query_noninterference (c : Collab) (w : World)
    (out q1 qe1 q2 qe2 : Option String) (files : List String)
    (h1 : usageGuardFires w ⟨out, q1, qe1, files⟩ = false)
    (h2 : usageGuardFires w ⟨out, q2, qe2, files⟩ = false) :
    runMain c w ⟨out, q1, qe1, files⟩ = runMain c w ⟨out, q2, qe2, files⟩ := by
  cases files with
  | cons f rest => rfl
  | nil =>
    have hb1 : (w.stdinTerminal && qe1.isNone) = false := by
      simpa [usageGuardFires] using h1
    have hb2 : (w.stdinTerminal && qe2.isNone) = false := by
      simpa [usageGuardFires] using h2
    have hg : gatherTexts w ⟨out, q1, qe1, []⟩ =
        gatherTexts w ⟨out, q2, qe2, []⟩ := by
      simp [gatherTexts, hb1, hb2]
    unfold runMain
    rw [hg]

theorem query_noninterference_witness :
    runMain demoCollab stdinGoodWorld ⟨none, some "q.aql", some ".a", []⟩ =
      runMain demoCollab stdinGoodWorld ⟨none, none, some ".b", []⟩ :=
  query_noninterference demoCollab stdinGoodWorld none (some "q.aql")
    (some ".a") none (some ".b") [] rfl rfl

theorem after_gather_shapes (c : Collab) (w : World) (args : AqArgs)
    (g : Gathered) (hg : gatherTexts w args = Except.ok g) :
    ((runMain c w args).exitCode = 0 ∧ (runMain c w args).stderr = []) ∨
    ((runMain c w args).exitCode = 1 ∧ errStderrShape (runMain c w args)) := by
  cases hp : parseTexts c.parse_from_str c.with_source g.texts with
  | error msg =>
    have hrm : runMain c w args =
        ⟨1, g.out0, [msg], [], g.readFiles, g.stdinReadAttempted⟩ := by
      simp [runMain, hg, hp]
    rw [hrm]
    exact Or.inr ⟨rfl, Or.inr (Or.inr (Or.inr (Or.inl ⟨msg, rfl⟩)))⟩
  | ok nodes =>
    cases ho : args.output with
    | some f =>
      cases hw : w.writeFile f with
      | error e =>
        have hrm : runMain c w args =
            ⟨1, g.out0, [writeFailLine f, e], [], g.readFiles,
              g.stdinReadAttempted⟩ := by
          simp [runMain, hg, hp, ho, hw]
        rw [hrm]
        exact Or.inr ⟨rfl, Or.inr (Or.inr (Or.inr (Or.inr (Or.inl ⟨f, e, rfl⟩))))⟩
      | ok u =>
        have hrm : runMain c w args =
            ⟨0, g.out0, [], [(f, c.print_to_string (aggregate nodes))],
              g.readFiles, g.stdinReadAttempted⟩ := by
          simp [runMain, hg, hp, ho, hw]
        rw [hrm]
        exact Or.inl ⟨rfl, rfl⟩
    | none =>
      cases hw : w.writeStdout with
      | error e =>
        have hrm : runMain c w args =
            ⟨1, g.out0, [stdoutFailLine, e], [], g.readFiles,
              g.stdinReadAttempted⟩ := by
          simp [runMain, hg, hp, ho, hw]
        rw [hrm]
        exact Or.inr ⟨rfl, Or.inr (Or.inr (Or.inr (Or.inr (Or.inr ⟨e, rfl⟩))))⟩
      | ok u =>
        have hrm : runMain c w args =
            ⟨0, g.out0 ++ [c.print_to_string (aggregate nodes)], [], [],
              g.readFiles, g.stdinReadAttempted⟩ := by
          simp [runMain, hg, hp, ho, hw]
        rw [hrm]
        exact Or.inl ⟨rfl, rfl⟩

/-- C8, amended: every run either succeeds with exit status 0 and an
empty error stream, or fails with exit status 1 and an error stream of
one of the failure shapes: the three-line usage message; a two-line
read diagnostic (context line naming the path or STDIN, then the
underlying error message); a single-line parse diagnostic (the
collaborator error rendered against the source text); or a two-line
write diagnostic. -/
theorem error_reporting_shapes (c : Collab) (w : World) (args : AqArgs) :
    ((runMain c w args).exitCode = 0 ∧ (runMain c w args).stderr = []) ∨
    ((runMain c w args).exitCode = 1 ∧ errStderrShape (runMain c w args)) := by
  by_cases hie : args.input_files.isEmpty
  · by_cases hb : (w.stdinTerminal && args.query_expression.isNone) = true
    · have hg : gatherTexts w args =
          Except.error ⟨1, [], [usageLine, "", helpLine], [], [], false⟩ := by
        simp [gatherTexts, hie, hb]
      rw [runMain_of_gather_error _ _ _ _ hg]
      exact Or.inr ⟨rfl, Or.inl rfl⟩
    · rw [Bool.not_eq_true] at hb
      cases hr : w.stdinRead with
      | error e =>
        have hg : gatherTexts w args =
            Except.error ⟨1, [], [stdinFailLine, e], [], [], true⟩ := by
          simp [gatherTexts, hie, hb, hr]
        rw [runMain_of_gather_error _ _ _ _ hg]
        exact Or.inr ⟨rfl, Or.inr (Or.inr (Or.inl ⟨e, rfl⟩))⟩
      | ok buf =>
        have hg : gatherTexts w args = Except.ok ⟨[buf], [], [], true⟩ := by
          simp [gatherTexts, hie, hb, hr]
        exact after_gather_shapes c w args _ hg
  · cases hrd : readInputFiles w.fs args.input_files with
    | mk r tr =>
      cases r with
      | error pe =>
        have hg : gatherTexts w args =
            Except.error ⟨1, [rustDebugList args.input_files ++ "\n"],
              [readFailLine pe.1, pe.2], [], tr, false⟩ := by
          simp only [Bool.not_eq_true] at hie
          simp [gatherTexts, hie, hrd]
        rw [runMain_of_gather_error _ _ _ _ hg]
        exact Or.inr ⟨rfl, Or.inr (Or.inl ⟨pe.1, pe.2, rfl⟩)⟩
      | ok ts =>
        have hg : gatherTexts w args =
            Except.ok ⟨ts, [rustDebugList args.input_files ++ "\n"], tr,
              false⟩ := by
          simp only [Bool.not_eq_true] at hie
          simp [gatherTexts, hie, hrd]
        exact after_gather_shapes c w args _ hg

end AsonQuery
